import Mathlib

/-!
Verification of the tic-tac-toe game engine in
src/tic_tac_toe_frontend/src/App.js.

The JavaScript board is a 3x3 nested array whose cells hold null, "X" or
"O".  We embed it as a list of lists of `Option Mark` (`none` = null).
Out-of-range JS indexing is modelled where it matters (handleClick):
reading a missing row yields undefined and a further index access throws
a TypeError; reading a missing column yields undefined.

`simpleAIMove` in the source mutates the board in place during its
hypothetical placements and restores each cell before returning; the
embedding threads the board explicitly and returns the final board
alongside the chosen cell, so that the restore behaviour is provable
rather than assumed.
-/

inductive Mark where
  | X
  | O
deriving DecidableEq

/-- A cell of the JS board: `none` is null, `some m` a placed mark. -/
abbrev Cell := Option Mark

/-- The JS board: an array of row arrays (expected shape 3x3). -/
abbrev Board := List (List Cell)

/-- A (row, col) coordinate pair. -/
abbrev Pos := Nat × Nat

/-- A winning line: the ordered list of its three coordinates. -/
abbrev Line := List Pos

/-- In-range read board[i][j]; out-of-range reads default to `none`
(only used at indices 0..2 on 3x3 boards, where it matches JS exactly). -/
def cell (b : Board) (i j : Nat) : Cell :=
  ((b[i]?.getD [])[j]?).getD none

/-- The in-place assignment board[i][j] = v of the source (always used
with i, j in range on 3x3 boards). -/
def setCell (b : Board) (i j : Nat) (v : Cell) : Board :=
  b.set i ((b[i]?.getD []).set j v)

/-- A well-formed 3x3 board, as produced by the application. -/
def Shaped (b : Board) : Prop :=
  b.length = 3 ∧ ∀ r ∈ b, r.length = 3

instance (b : Board) : Decidable (Shaped b) :=
  inferInstanceAs (Decidable (b.length = 3 ∧ ∀ r ∈ b, r.length = 3))

/-- getInitialBoard: a 3x3 array filled with nulls. -/
def getInitialBoard : Board :=
  List.replicate 3 (List.replicate 3 (none : Cell))

/-- The `directions` array of checkWinner: rows, then columns, then the
two diagonals, in source order. -/
def directions : List Line :=
  [ [(0, 0), (0, 1), (0, 2)],
    [(1, 0), (1, 1), (1, 2)],
    [(2, 0), (2, 1), (2, 2)],
    [(0, 0), (1, 0), (2, 0)],
    [(0, 1), (1, 1), (2, 1)],
    [(0, 2), (1, 2), (2, 2)],
    [(0, 0), (1, 1), (2, 2)],
    [(0, 2), (1, 1), (2, 0)] ]

/-- One iteration of checkWinner's loop: `const [a, b, c] = line;
const v1 = board[a[0]][a[1]]; if (v1 && v1 === board[b...] &&
v1 === board[c...]) return \x7b winner: v1, line \x7d`. -/
def lineWin (bd : Board) (line : Line) : Option (Mark × Line) :=
  match line with
  | [a, b, c] =>
    match cell bd a.1 a.2 with
    | some v1 =>
      if cell bd b.1 b.2 = some v1 ∧ cell bd c.1 c.2 = some v1 then
        some (v1, line)
      else
        none
    | none => none
  | _ => none

/-- checkWinner: returns the winner and winning line of the first
direction whose three cells hold the same non-null mark, else null. -/
def checkWinner (bd : Board) : Option (Mark × Line) :=
  directions.findSome? (lineWin bd)

/-- isDraw: the board is full and there is no winner. -/
def isDraw (bd : Board) : Bool :=
  bd.flatten.all (fun c => c != none) && (checkWinner bd).isNone

/-- The row-major cell enumeration of the nested
`for i in 0..2, for j in 0..2` loops of simpleAIMove. -/
def allCells : List Pos :=
  [(0, 0), (0, 1), (0, 2), (1, 0), (1, 1), (1, 2), (2, 0), (2, 1), (2, 2)]

/-- The test of one loop body of simpleAIMove's first two tiers: the
cell is empty and placing `m` there makes checkWinner report `m`
(JS: `checkWinner(board)?.winner === m`). -/
def winningPlacement (bd : Board) (m : Mark) (p : Pos) : Bool :=
  (cell bd p.1 p.2 == none) &&
    ((checkWinner (setCell bd p.1 p.2 (some m))).map Prod.fst == some m)

/-- One tier of simpleAIMove: scan `cells` in order; at each empty cell
set it to `m`, test checkWinner, reset it to null, and return the cell
on success.  The board is threaded to model the in-place mutation. -/
def tryCells (bd : Board) (m : Mark) (cells : List Pos) : Option Pos × Board :=
  match cells with
  | [] => (none, bd)
  | p :: rest =>
    if cell bd p.1 p.2 = none then
      let b1 := setCell bd p.1 p.2 (some m)
      if (checkWinner b1).map Prod.fst = some m then
        (some p, setCell b1 p.1 p.2 none)
      else
        tryCells (setCell b1 p.1 p.2 none) m rest
    else
      tryCells bd m rest

/-- simpleAIMove: win if possible, else block, else take the centre,
else pick `empties[Math.floor(Math.random() * empties.length)]`.  The
random draw is abstracted by `rand`: for a nonempty pool the JS index
ranges over exactly 0 .. empties.length - 1, which `rand % length`
realises; on an empty pool the JS lookup yields undefined (`none`).
The final board is returned alongside the move. -/
def simpleAIMove (bd : Board) (aiMark humanMark : Mark) (rand : Nat) :
    Option Pos × Board :=
  let r1 := tryCells bd aiMark allCells
  match r1.1 with
  | some p => (some p, r1.2)
  | none =>
    let r2 := tryCells r1.2 humanMark allCells
    match r2.1 with
    | some p => (some p, r2.2)
    | none =>
      if cell r2.2 1 1 = none then
        (some (1, 1), r2.2)
      else
        let empties := allCells.filter fun p => cell r2.2 p.1 p.2 == none
        (empties[rand % empties.length]?, r2.2)

inductive GameOutcome where
  | inProgress
  | win (m : Mark) (line : Line)
  | draw
deriving DecidableEq

/-- The outcome classification the component applies after every move:
winner first, then draw, else the game continues. -/
def evaluate (bd : Board) : GameOutcome :=
  match checkWinner bd with
  | some (m, line) => .win m line
  | none => if isDraw bd then .draw else .inProgress

/-! Spec-side reference definitions, written from the specification's
words, to be compared with the source functions above. -/

/-- The spec's three rows, top to bottom. -/
def specRows : List Line :=
  [ [(0, 0), (0, 1), (0, 2)],
    [(1, 0), (1, 1), (1, 2)],
    [(2, 0), (2, 1), (2, 2)] ]

/-- The spec's three columns, left to right. -/
def specCols : List Line :=
  [ [(0, 0), (1, 0), (2, 0)],
    [(0, 1), (1, 1), (2, 1)],
    [(0, 2), (1, 2), (2, 2)] ]

/-- The spec's two diagonals. -/
def specDiags : List Line :=
  [ [(0, 0), (1, 1), (2, 2)],
    [(0, 2), (1, 1), (2, 0)] ]

/-- The spec's fixed enumeration order: rows top-to-bottom, then
columns left-to-right, then the two diagonals. -/
def specLines : List Line :=
  specRows ++ specCols ++ specDiags

/-- Spec-side: the Mark held by all three cells of the line, when the
three cells hold the same non-Empty Mark. -/
def specLineMark (bd : Board) (line : Line) : Option Mark :=
  match line.map (fun p => cell bd p.1 p.2) with
  | [some m1, some m2, some m3] =>
    if m1 = m2 ∧ m1 = m3 then some m1 else none
  | _ => none

/-- Spec-side evaluate, win component: the first Line of the fixed
enumeration whose three cells hold the same non-Empty Mark, paired with
that Mark. -/
def specEvaluateWin (bd : Board) : Option (Mark × Line) :=
  specLines.findSome? fun line => (specLineMark bd line).map fun m => (m, line)

/-! The presentation-layer state and its click handler, modelled from
the App component: this is where the source enforces the applyMove
preconditions (occupied cell, terminal game, out-of-range access). -/

inductive GameMode where
  | ai
  | twoPlayer
deriving DecidableEq

def markToStr : Mark → String
  | .X => "X"
  | .O => "O"

/-- The React state read and written by handleClick. -/
structure GameState where
  board : Board
  xIsNext : Bool
  mode : Option GameMode
  status : String
  winnerInfo : Option (Mark × Line)
  disableBoard : Bool
deriving DecidableEq

inductive JsError where
  | typeError
deriving DecidableEq

/-- Result of one handleClick call: an early return that changes
nothing (`ignored`), a thrown JS TypeError (indexing into an undefined
row), or the updated state; `aiScheduled` records whether a deferred
aiMove was scheduled via setTimeout. -/
inductive ClickResult where
  | threw (e : JsError)
  | ignored
  | updated (s : GameState) (aiScheduled : Bool)
deriving DecidableEq

/-- handleClick(row, col): the guard
`if (disableBoard || board[row][col] !== null || winnerInfo) return;`
evaluated left to right with JS short-circuiting and JS indexing
(missing row: undefined, further access throws; missing column:
undefined, which is !== null), then the mode guards, then the move is
applied to a copy of the board and classified. -/
def handleClick (s : GameState) (row col : Nat) : ClickResult :=
  if s.disableBoard then .ignored
  else
    match s.board[row]? with
    | none => .threw .typeError
    | some rowArr =>
      match rowArr[col]? with
      | none => .ignored
      | some cellV =>
        if cellV ≠ none then .ignored
        else if s.winnerInfo.isSome then .ignored
        else if s.mode = none then .ignored
        else if s.mode = some .ai && !s.xIsNext then .ignored
        else
          let mark : Mark := if s.xIsNext then .X else .O
          let newBoard := setCell s.board row col (some mark)
          match checkWinner newBoard with
          | some w =>
            .updated { s with
                       board := newBoard
                       winnerInfo := some w
                       status := "Winner: " ++ markToStr w.1
                       disableBoard := true } false
          | none =>
            if isDraw newBoard then
              .updated { s with
                         board := newBoard
                         winnerInfo := none
                         status := "Draw!"
                         disableBoard := true } false
            else if s.mode = some .ai then
              .updated { s with
                         board := newBoard
                         xIsNext := false
                         disableBoard := true } true
            else
              .updated { s with
                         board := newBoard
                         xIsNext := !s.xIsNext
                         status := "Next: " ++
                           (if !s.xIsNext then "X" else "O") } false

/-! Predicates used to state the claims. -/

/-- A win classification holds: checkWinner reports a winner. -/
def WinHolds (bd : Board) : Prop :=
  checkWinner bd ≠ none

/-- A draw classification holds: isDraw is true. -/
def DrawHolds (bd : Board) : Prop :=
  isDraw bd = true

/-- The game is still in progress: no winner and some cell empty. -/
def InProgressHolds (bd : Board) : Prop :=
  checkWinner bd = none ∧ ∃ i, i < 3 ∧ ∃ j, j < 3 ∧ cell bd i j = none

/-- Every cell of the 3x3 grid is occupied. -/
def FullBoard (bd : Board) : Prop :=
  ∀ i, i < 3 → ∀ j, j < 3 → cell bd i j ≠ none

instance (bd : Board) : Decidable (FullBoard bd) :=
  inferInstanceAs (Decidable (∀ i, i < 3 → ∀ j, j < 3 → cell bd i j ≠ none))

/-! ### List helper lemmas -/

theorem list_set_get_self {α : Type} : ∀ (l : List α) (i : Nat) (h : i < l.length),
    l.set i (l.get ⟨i, h⟩) = l := by
  intro l
  induction l with
  | nil => intro i h; simp at h
  | cons a t ih =>
    intro i h
    cases i with
    | zero => rfl
    | succ n =>
      have h' : n < t.length := by simpa using h
      simpa [List.set] using ih n h'

theorem list_set_getD_self {α : Type} (l : List α) (i : Nat) (d : α)
    (h : i < l.length) : l.set i ((l[i]?).getD d) = l := by
  rw [List.getElem?_eq_getElem h]
  simpa [List.get_eq_getElem] using list_set_get_self l i h

theorem findSome?_congr {α β : Type} (f g : α → Option β) :
    ∀ (l : List α), (∀ a ∈ l, f a = g a) → l.findSome? f = l.findSome? g := by
  intro l
  induction l with
  | nil => intro _; rfl
  | cons a t ih =>
    intro h
    rw [List.findSome?_cons, List.findSome?_cons, h a (by simp),
      ih fun x hx => h x (by simp [hx])]

/-! ### Board access and restoration lemmas -/

theorem shaped_row (b : Board) (hs : Shaped b) (i : Nat) (hi : i < 3) :
    (b[i]?.getD []).length = 3 := by
  have hlen : i < b.length := by rw [hs.1]; exact hi
  rw [List.getElem?_eq_getElem hlen]
  exact hs.2 _ (List.getElem_mem hlen)

theorem setCell_setCell (b : Board) (i j : Nat) (v w : Cell)
    (hi : i < b.length) :
    setCell (setCell b i j v) i j w = setCell b i j w := by
  unfold setCell
  have hlen : i < (b.set i ((b[i]?.getD []).set j v)).length := by
    simpa using hi
  rw [List.getElem?_eq_getElem hlen]
  rw [List.getElem_set_self]
  simp [List.set_set]

theorem setCell_none_self (b : Board) (i j : Nat)
    (hi : i < b.length) (hj : j < (b[i]?.getD []).length)
    (hc : cell b i j = none) : setCell b i j none = b := by
  unfold setCell
  have hrow : (b[i]?.getD [])[j]? = some ((b[i]?.getD []).get ⟨j, hj⟩) := by
    rw [List.getElem?_eq_getElem hj, List.get_eq_getElem]
  have hcell : (b[i]?.getD []).get ⟨j, hj⟩ = none := by
    have := hc
    unfold cell at this
    rw [hrow] at this
    simpa using this
  calc b.set i ((b[i]?.getD []).set j none)
      = b.set i ((b[i]?.getD []).set j ((b[i]?.getD []).get ⟨j, hj⟩)) := by
        rw [hcell]
    _ = b.set i (b[i]?.getD []) := by rw [list_set_get_self]
    _ = b := list_set_getD_self b i [] hi

theorem setCell_restore (b : Board) (i j : Nat) (v : Cell)
    (hi : i < b.length) (hj : j < (b[i]?.getD []).length)
    (hc : cell b i j = none) :
    setCell (setCell b i j v) i j none = b := by
  rw [setCell_setCell b i j v none hi, setCell_none_self b i j hi hj hc]

/-! ### tryCells characterisation -/

theorem tryCells_spec (m : Mark) :
    ∀ (cells : List Pos) (b : Board), Shaped b →
      (∀ p ∈ cells, p.1 < 3 ∧ p.2 < 3) →
      tryCells b m cells = ((cells.filter (winningPlacement b m)).head?, b) := by
  intro cells
  induction cells with
  | nil => intro b _ _; rfl
  | cons p rest ih =>
    intro b hs hmem
    have hp := hmem p (by simp)
    have hrest : ∀ q ∈ rest, q.1 < 3 ∧ q.2 < 3 := fun q hq => hmem q (by simp [hq])
    have hi : p.1 < b.length := by rw [hs.1]; exact hp.1
    have hj : p.2 < (b[p.1]?.getD []).length := by
      rw [shaped_row b hs p.1 hp.1]; exact hp.2
    by_cases hc : cell b p.1 p.2 = none
    · have hres := setCell_restore b p.1 p.2 (some m) hi hj hc
      by_cases hw : (checkWinner (setCell b p.1 p.2 (some m))).map Prod.fst = some m
      · have hwp : winningPlacement b m p = true := by
          simp [winningPlacement, hc, hw]
        simp only [tryCells]
        rw [if_pos hc, if_pos hw, hres, List.filter_cons_of_pos hwp]
        rfl
      · have hwp : ¬ winningPlacement b m p = true := by
          simp [winningPlacement, hc, hw]
        simp only [tryCells]
        rw [if_pos hc, if_neg hw, hres, ih b hs hrest,
          List.filter_cons_of_neg hwp]
    · have hwp : ¬ winningPlacement b m p = true := by
        simp [winningPlacement, hc]
      simp only [tryCells]
      rw [if_neg hc, ih b hs hrest, List.filter_cons_of_neg hwp]

/-! ### simpleAIMove tier lemmas -/

theorem allCells_bounds : ∀ p ∈ allCells, p.1 < 3 ∧ p.2 < 3 := by decide

theorem simpleAIMove_winTier (b : Board) (ai hu : Mark) (k : Nat) (p : Pos)
    (hs : Shaped b)
    (h1 : (allCells.filter (winningPlacement b ai)).head? = some p) :
    simpleAIMove b ai hu k = (some p, b) := by
  simp only [simpleAIMove, tryCells_spec ai allCells b hs allCells_bounds, h1]

theorem simpleAIMove_blockTier (b : Board) (ai hu : Mark) (k : Nat) (p : Pos)
    (hs : Shaped b)
    (h1 : (allCells.filter (winningPlacement b ai)).head? = none)
    (h2 : (allCells.filter (winningPlacement b hu)).head? = some p) :
    simpleAIMove b ai hu k = (some p, b) := by
  simp only [simpleAIMove, tryCells_spec ai allCells b hs allCells_bounds, h1,
    tryCells_spec hu allCells b hs allCells_bounds, h2]

theorem simpleAIMove_centerTier (b : Board) (ai hu : Mark) (k : Nat)
    (hs : Shaped b)
    (h1 : (allCells.filter (winningPlacement b ai)).head? = none)
    (h2 : (allCells.filter (winningPlacement b hu)).head? = none)
    (hc : cell b 1 1 = none) :
    simpleAIMove b ai hu k = (some (1, 1), b) := by
  simp only [simpleAIMove, tryCells_spec ai allCells b hs allCells_bounds, h1,
    tryCells_spec hu allCells b hs allCells_bounds, h2, if_pos hc]

theorem simpleAIMove_randomTier (b : Board) (ai hu : Mark) (k : Nat)
    (hs : Shaped b)
    (h1 : (allCells.filter (winningPlacement b ai)).head? = none)
    (h2 : (allCells.filter (winningPlacement b hu)).head? = none)
    (hc : ¬ cell b 1 1 = none) :
    simpleAIMove b ai hu k =
      ((allCells.filter fun p => cell b p.1 p.2 == none)[k %
        (allCells.filter fun p => cell b p.1 p.2 == none).length]?, b) := by
  simp only [simpleAIMove, tryCells_spec ai allCells b hs allCells_bounds, h1,
    tryCells_spec hu allCells b hs allCells_bounds, h2, if_neg hc]

theorem lineWin_eq_spec (bd : Board) (line : Line) :
    lineWin bd line = (specLineMark bd line).map fun m => (m, line) := by
  rcases line with _ | ⟨a, _ | ⟨b, _ | ⟨c, _ | ⟨d, rest⟩⟩⟩⟩
  · rfl
  · rcases h1 : cell bd a.1 a.2 with _ | m1 <;>
      simp [lineWin, specLineMark, h1]
  · rcases h1 : cell bd a.1 a.2 with _ | m1 <;>
      rcases h2 : cell bd b.1 b.2 with _ | m2 <;>
        simp [lineWin, specLineMark, h1, h2]
  · simp only [lineWin, specLineMark, List.map]
    rcases h1 : cell bd a.1 a.2 with _ | m1
    · rfl
    · rcases h2 : cell bd b.1 b.2 with _ | m2
      · simp
      · rcases h3 : cell bd c.1 c.2 with _ | m3
        · simp
        · by_cases e2 : m1 = m2
          · subst e2
            by_cases e3 : m1 = m3
            · subst e3
              simp
            · simp [e3, Ne.symm e3]
          · simp [e2, Ne.symm e2]
  · rcases h1 : cell bd a.1 a.2 with _ | m1 <;>
      rcases h2 : cell bd b.1 b.2 with _ | m2 <;>
        rcases h3 : cell bd c.1 c.2 with _ | m3 <;>
          simp [lineWin, specLineMark, h1, h2, h3]

theorem simpleAIMove_snd (b : Board) (ai hu : Mark) (k : Nat)
    (hs : Shaped b) : (simpleAIMove b ai hu k).2 = b := by
  simp only [simpleAIMove, tryCells_spec ai allCells b hs allCells_bounds,
    tryCells_spec hu allCells b hs allCells_bounds]
  rcases hh1 : (allCells.filter (winningPlacement b ai)).head? with _ | p
  · rcases hh2 : (allCells.filter (winningPlacement b hu)).head? with _ | q
    · by_cases hc : cell b 1 1 = none
      · simp [hh1, hh2, if_pos hc]
      · simp [hh1, hh2, if_neg hc]
    · simp [hh1, hh2]
  · simp [hh1]

/-! ### Shape and fullness lemmas -/

theorem shaped_eq (b : Board) (hs : Shaped b) :
    ∃ c00 c01 c02 c10 c11 c12 c20 c21 c22 : Cell,
      b = [[c00, c01, c02], [c10, c11, c12], [c20, c21, c22]] := by
  obtain ⟨r0, r1, r2, hb⟩ := List.length_eq_three.mp hs.1
  subst hb
  obtain ⟨a0, a1, a2, h0⟩ := List.length_eq_three.mp (hs.2 r0 (by simp))
  obtain ⟨b0, b1, b2, h1⟩ := List.length_eq_three.mp (hs.2 r1 (by simp))
  obtain ⟨d0, d1, d2, h2⟩ := List.length_eq_three.mp (hs.2 r2 (by simp))
  subst h0
  subst h1
  subst h2
  exact ⟨a0, a1, a2, b0, b1, b2, d0, d1, d2, rfl⟩

theorem flatten_lit (c00 c01 c02 c10 c11 c12 c20 c21 c22 : Cell) :
    List.flatten [[c00, c01, c02], [c10, c11, c12], [c20, c21, c22]] =
      [c00, c01, c02, c10, c11, c12, c20, c21, c22] := rfl

theorem full_iff (b : Board) (hs : Shaped b) :
    (b.flatten.all fun c => c != none) = true ↔ FullBoard b := by
  obtain ⟨c00, c01, c02, c10, c11, c12, c20, c21, c22, hb⟩ := shaped_eq b hs
  subst hb
  rw [flatten_lit]
  simp only [List.all_cons, List.all_nil, Bool.and_eq_true, bne_iff_ne, ne_eq,
    and_true]
  constructor
  · rintro ⟨h1, h2, h3, h4, h5, h6, h7, h8, h9⟩ i hi j hj
    interval_cases i <;> interval_cases j <;> assumption
  · intro h
    exact ⟨h 0 (by omega) 0 (by omega), h 0 (by omega) 1 (by omega),
      h 0 (by omega) 2 (by omega), h 1 (by omega) 0 (by omega),
      h 1 (by omega) 1 (by omega), h 1 (by omega) 2 (by omega),
      h 2 (by omega) 0 (by omega), h 2 (by omega) 1 (by omega),
      h 2 (by omega) 2 (by omega)⟩

theorem not_full_empty (b : Board) (h : ¬ FullBoard b) :
    ∃ i, i < 3 ∧ ∃ j, j < 3 ∧ cell b i j = none := by
  unfold FullBoard at h
  push_neg at h
  obtain ⟨i, hi, j, hj, hc⟩ := h
  exact ⟨i, hi, j, hj, hc⟩

theorem board_row_some (b : Board) (hs : Shaped b) (row : Nat) (hr : row < 3) :
    b[row]? = some (b[row]?.getD []) := by
  have hlen : row < b.length := by rw [hs.1]; exact hr
  rw [List.getElem?_eq_getElem hlen]
  rfl

/-! ### Claim theorems -/

/-- C1: on every board, checkWinner examines the 8 fixed lines in the
order rows top-to-bottom, then columns left-to-right, then the two
diagonals, and returns the first line whose three cells hold the same
non-Empty mark, paired with that mark (it coincides with the spec-side
specEvaluateWin, which is by definition the first match of that
enumeration); in particular on a board whose rows 0 and 1 are two
simultaneous winning lines, only the first (row 0) is reported. -/
theorem C1_checkWinner_first_winning_line :
    (∀ bd : Board, checkWinner bd = specEvaluateWin bd) ∧
    checkWinner [[some Mark.X, some Mark.X, some Mark.X],
                 [some Mark.O, some Mark.O, some Mark.O],
                 [none, none, none]] =
      some (Mark.X, [(0, 0), (0, 1), (0, 2)]) := by
  constructor
  · intro bd
    unfold checkWinner specEvaluateWin
    rw [show specLines = directions from rfl]
    exact findSome?_congr _ _ directions fun line _ => lineWin_eq_spec bd line
  · decide

/-- C2: win-now priority. On every 3x3 board with no pre-existing win,
if some empty cell completes a win for aiMark, simpleAIMove returns the
first such cell in the row-major scan order of allCells, whatever the
opponent mark and whatever the random draw. -/
theorem C2_win_now_priority (b : Board) (ai hu : Mark) (k : Nat) (p : Pos)
    (hs : Shaped b) (_hnw : checkWinner b = none)
    (h1 : (allCells.filter (winningPlacement b ai)).head? = some p) :
    (simpleAIMove b ai hu k).1 = some p := by
  rw [simpleAIMove_winTier b ai hu k p hs h1]

/-- C2 witness: with O on (0,0) and (0,1) and X on (1,0) and (1,1), the
first (and only) winning placement for O is (0,2) and the AI takes it. -/
theorem C2_win_now_priority_witness :
    (simpleAIMove [[some Mark.O, some Mark.O, none],
                   [some Mark.X, some Mark.X, none],
                   [none, none, none]] Mark.O Mark.X 0).1 = some (0, 2) :=
  C2_win_now_priority _ Mark.O Mark.X 0 (0, 2) (by decide) (by decide) (by decide)

/-- C3: block priority. On every 3x3 board where the AI has no winning
placement (the win-now scan finds nothing), if some empty cell would
complete a win for the opponent mark, simpleAIMove returns the first
such cell in row-major scan order. -/
theorem C3_block_priority (b : Board) (ai hu : Mark) (k : Nat) (p : Pos)
    (hs : Shaped b)
    (h1 : (allCells.filter (winningPlacement b ai)).head? = none)
    (h2 : (allCells.filter (winningPlacement b hu)).head? = some p) :
    (simpleAIMove b ai hu k).1 = some p := by
  rw [simpleAIMove_blockTier b ai hu k p hs h1 h2]

/-- C3 witness: with X on (0,0) and (1,1) threatening the main diagonal
and the AI playing O with no winning placement, the AI blocks at (2,2). -/
theorem C3_block_priority_witness :
    (simpleAIMove [[some Mark.X, none, none],
                   [none, some Mark.X, none],
                   [none, none, none]] Mark.O Mark.X 0).1 = some (2, 2) :=
  C3_block_priority _ Mark.O Mark.X 0 (2, 2) (by decide) (by decide) (by decide)

/-- C4: centre preference. On every 3x3 board where neither the win-now
scan nor the block scan finds a cell and the centre (1,1) is empty,
simpleAIMove returns (1,1). -/
theorem C4_center_preference (b : Board) (ai hu : Mark) (k : Nat)
    (hs : Shaped b)
    (h1 : (allCells.filter (winningPlacement b ai)).head? = none)
    (h2 : (allCells.filter (winningPlacement b hu)).head? = none)
    (hc : cell b 1 1 = none) :
    (simpleAIMove b ai hu k).1 = some (1, 1) := by
  rw [simpleAIMove_centerTier b ai hu k hs h1 h2 hc]

/-- C4 witness: X has played only (0,0) and the AI plays O: no tier
before the centre fires, so the AI takes (1,1). -/
theorem C4_center_preference_witness :
    (simpleAIMove [[some Mark.X, none, none],
                   [none, none, none],
                   [none, none, none]] Mark.O Mark.X 0).1 = some (1, 1) :=
  C4_center_preference _ Mark.O Mark.X 0 (by decide) (by decide) (by decide)
    (by decide)

/-- C5: draw characterisation. On every 3x3 board, isDraw is true
exactly when every one of the 9 cells is occupied and checkWinner
yields no winner. -/
theorem C5_draw_characterization (b : Board) (hs : Shaped b) :
    isDraw b = true ↔ FullBoard b ∧ checkWinner b = none := by
  unfold isDraw
  rw [Bool.and_eq_true, full_iff b hs, Option.isNone_iff_eq_none]

/-- C5 witness: a fully occupied board with no completed line, on which
both sides of the characterisation hold. -/
theorem C5_draw_characterization_witness :
    isDraw [[some Mark.X, some Mark.O, some Mark.X],
            [some Mark.X, some Mark.O, some Mark.O],
            [some Mark.O, some Mark.X, some Mark.X]] = true ↔
      FullBoard [[some Mark.X, some Mark.O, some Mark.X],
                 [some Mark.X, some Mark.O, some Mark.O],
                 [some Mark.O, some Mark.X, some Mark.X]] ∧
      checkWinner [[some Mark.X, some Mark.O, some Mark.X],
                   [some Mark.X, some Mark.O, some Mark.O],
                   [some Mark.O, some Mark.X, some Mark.X]] = none :=
  C5_draw_characterization _ (by decide)

/-- C6: outcome trichotomy. On every 3x3 board exactly one of the three
classifications holds: a win (checkWinner reports a winner), a draw
(isDraw is true), or in-progress (no winner and an empty cell remains);
moreover the empty board of getInitialBoard evaluates to InProgress. -/
theorem C6_outcome_trichotomy :
    (∀ b : Board, Shaped b →
      (WinHolds b ∧ ¬ DrawHolds b ∧ ¬ InProgressHolds b) ∨
      (¬ WinHolds b ∧ DrawHolds b ∧ ¬ InProgressHolds b) ∨
      (¬ WinHolds b ∧ ¬ DrawHolds b ∧ InProgressHolds b)) ∧
    evaluate getInitialBoard = GameOutcome.inProgress := by
  constructor
  · intro b hs
    by_cases hw : checkWinner b = none
    · by_cases hf : FullBoard b
      · right; left
        refine ⟨?_, ?_, ?_⟩
        · unfold WinHolds
          simp [hw]
        · unfold DrawHolds isDraw
          rw [Bool.and_eq_true, full_iff b hs, Option.isNone_iff_eq_none]
          exact ⟨hf, hw⟩
        · unfold InProgressHolds
          rintro ⟨-, i, hi, j, hj, hc⟩
          exact hf i hi j hj hc
      · right; right
        refine ⟨?_, ?_, ?_⟩
        · unfold WinHolds
          simp [hw]
        · unfold DrawHolds isDraw
          rw [Bool.and_eq_true, full_iff b hs, Option.isNone_iff_eq_none]
          rintro ⟨hfull, -⟩
          exact hf hfull
        · exact ⟨hw, not_full_empty b hf⟩
    · left
      refine ⟨hw, ?_, ?_⟩
      · unfold DrawHolds isDraw
        rw [Bool.and_eq_true, Option.isNone_iff_eq_none]
        rintro ⟨-, hnone⟩
        exact hw hnone
      · unfold InProgressHolds
        rintro ⟨hnone, -⟩
        exact hw hnone
  · decide

/-- C6 witness: the trichotomy instantiated at the empty initial board
(the in-progress branch holds there). -/
theorem C6_outcome_trichotomy_witness :
    (WinHolds getInitialBoard ∧ ¬ DrawHolds getInitialBoard ∧
      ¬ InProgressHolds getInitialBoard) ∨
    (¬ WinHolds getInitialBoard ∧ DrawHolds getInitialBoard ∧
      ¬ InProgressHolds getInitialBoard) ∨
    (¬ WinHolds getInitialBoard ∧ ¬ DrawHolds getInitialBoard ∧
      InProgressHolds getInitialBoard) :=
  C6_outcome_trichotomy.1 getInitialBoard (by decide)

/-- C7: rejected moves. On every app state with a 3x3 board, clicking a
cell that is occupied, out of range (row or col outside 0..2), or while
the game is already over as the app tracks it (a recorded winner or a
disabled board) produces no new state: handleClick either returns early
(the guard, modelled as ignored) or raises the TypeError JS produces
when indexing into a missing row — in either case no board is written
and the caller state is untouched. -/
theorem C7_invalid_clicks_rejected (s : GameState) (row col : Nat)
    (hs : Shaped s.board)
    (h : (row < 3 ∧ col < 3 ∧ cell s.board row col ≠ none) ∨
         3 ≤ row ∨ 3 ≤ col ∨
         s.winnerInfo.isSome = true ∨ s.disableBoard = true) :
    handleClick s row col = ClickResult.ignored ∨
    handleClick s row col = ClickResult.threw JsError.typeError := by
  by_cases hd : s.disableBoard = true
  · left
    simp [handleClick, hd]
  · have hd' : s.disableBoard = false := by simpa using hd
    rcases h with ⟨hr, hcl, hocc⟩ | hr | hcl | hwi | hdb
    · have hrow := board_row_some s.board hs row hr
      set R := s.board[row]?.getD [] with hR
      have hRlen : R.length = 3 := shaped_row s.board hs row hr
      have hcol2 : col < R.length := by rw [hRlen]; exact hcl
      have hv : R[col]? = some (cell s.board row col) := by
        unfold cell
        rw [← hR, List.getElem?_eq_getElem hcol2]
        rfl
      left
      simp [handleClick, hd', hrow, hv, hocc]
    · right
      have hnone : s.board[row]? = none :=
        List.getElem?_eq_none (by rw [hs.1]; omega)
      simp [handleClick, hd', hnone]
    · by_cases hr3 : row < 3
      · have hrow := board_row_some s.board hs row hr3
        set R := s.board[row]?.getD [] with hR
        have hRlen : R.length = 3 := shaped_row s.board hs row hr3
        have hv0 : R[col]? = none :=
          List.getElem?_eq_none (by rw [hRlen]; omega)
        left
        simp [handleClick, hd', hrow, hv0]
      · right
        have hnone : s.board[row]? = none :=
          List.getElem?_eq_none (by rw [hs.1]; omega)
        simp [handleClick, hd', hnone]
    · by_cases hr3 : row < 3
      · have hrow := board_row_some s.board hs row hr3
        set R := s.board[row]?.getD [] with hR
        rcases hv : R[col]? with _ | v
        · left
          simp [handleClick, hd', hrow, hv]
        · by_cases hvn : v = none
          · subst hvn
            left
            simp [handleClick, hd', hrow, hv, hwi]
          · left
            simp [handleClick, hd', hrow, hv, hvn]
      · right
        have hnone : s.board[row]? = none :=
          List.getElem?_eq_none (by rw [hs.1]; omega)
        simp [handleClick, hd', hnone]
    · exact absurd hdb hd

/-- C7 witness: clicking the occupied cell (0,0) in a two-player game
in progress is rejected. -/
theorem C7_invalid_clicks_rejected_witness :
    handleClick
      { board := [[some Mark.X, none, none], [none, none, none],
                  [none, none, none]]
        xIsNext := false
        mode := some GameMode.twoPlayer
        status := "Next: O"
        winnerInfo := none
        disableBoard := false } 0 0 = ClickResult.ignored ∨
    handleClick
      { board := [[some Mark.X, none, none], [none, none, none],
                  [none, none, none]]
        xIsNext := false
        mode := some GameMode.twoPlayer
        status := "Next: O"
        winnerInfo := none
        disableBoard := false } 0 0 = ClickResult.threw JsError.typeError :=
  C7_invalid_clicks_rejected _ 0 0 (by decide)
    (Or.inl ⟨by omega, by omega, by decide⟩)

/-- C8 counterexample: a terminal board need not make simpleAIMove
signal the absence of moves.  On the board where X has already won the
whole first row and six cells are still empty, the block scan sees the
existing X line as soon as it hypothetically places an X, so
simpleAIMove returns the coordinate (1,0) instead of no move. -/
theorem C8_terminal_board_returns_move :
    checkWinner [[some Mark.X, some Mark.X, some Mark.X],
                 [none, none, none], [none, none, none]] ≠ none ∧
    (simpleAIMove [[some Mark.X, some Mark.X, some Mark.X],
                   [none, none, none], [none, none, none]]
        Mark.O Mark.X 0).1 = some (1, 0) := by
  decide

/-- C8 (amended): on every full 3x3 board (no empty cell) simpleAIMove
returns no coordinate: the first two scans and the centre test find no
empty cell and the random lookup indexes an empty pool, the undefined
JS result (none here); a merely terminal but non-full board is not
rejected. -/
theorem C8_full_board_no_move (b : Board) (ai hu : Mark) (k : Nat)
    (hs : Shaped b) (hf : FullBoard b) :
    (simpleAIMove b ai hu k).1 = none := by
  have h1 : allCells.filter (winningPlacement b ai) = [] := by
    rw [List.filter_eq_nil_iff]
    intro p hp
    have hb := allCells_bounds p hp
    simp only [winningPlacement, Bool.and_eq_true, beq_iff_eq]
    rintro ⟨hc, -⟩
    exact hf p.1 hb.1 p.2 hb.2 hc
  have h2 : allCells.filter (winningPlacement b hu) = [] := by
    rw [List.filter_eq_nil_iff]
    intro p hp
    have hb := allCells_bounds p hp
    simp only [winningPlacement, Bool.and_eq_true, beq_iff_eq]
    rintro ⟨hc, -⟩
    exact hf p.1 hb.1 p.2 hb.2 hc
  have hempt : (allCells.filter fun p => cell b p.1 p.2 == none) = [] := by
    rw [List.filter_eq_nil_iff]
    intro p hp
    have hb := allCells_bounds p hp
    simp only [beq_iff_eq]
    exact hf p.1 hb.1 p.2 hb.2
  have hc11 : ¬ cell b 1 1 = none := hf 1 (by omega) 1 (by omega)
  rw [simpleAIMove_randomTier b ai hu k hs (by rw [h1]; rfl)
    (by rw [h2]; rfl) hc11]
  rw [hempt]
  simp

/-- C8 amended witness: on a concrete full board the AI signals no
available move. -/
theorem C8_full_board_no_move_witness :
    (simpleAIMove [[some Mark.X, some Mark.O, some Mark.X],
                   [some Mark.X, some Mark.O, some Mark.O],
                   [some Mark.O, some Mark.X, some Mark.X]]
        Mark.O Mark.X 0).1 = none :=
  C8_full_board_no_move _ Mark.O Mark.X 0 (by decide) (by decide)

/-- C9: frame property. On every 3x3 board, after simpleAIMove returns,
the board it was given is exactly the board it started from: every
hypothetical placement made during the win and block scans has been
undone before every return. -/
theorem C9_simpleAIMove_preserves_board (b : Board) (ai hu : Mark) (k : Nat)
    (hs : Shaped b) : (simpleAIMove b ai hu k).2 = b :=
  simpleAIMove_snd b ai hu k hs

/-- C9 witness: on a concrete mid-game board the final board equals the
input board. -/
theorem C9_simpleAIMove_preserves_board_witness :
    (simpleAIMove [[some Mark.O, some Mark.O, none],
                   [some Mark.X, some Mark.X, none],
                   [none, none, none]] Mark.O Mark.X 4).2 =
      [[some Mark.O, some Mark.O, none],
       [some Mark.X, some Mark.X, none],
       [none, none, none]] :=
  C9_simpleAIMove_preserves_board _ Mark.O Mark.X 4 (by decide)

/-- C10: output validity. On every 3x3 board with at least one empty
cell, simpleAIMove returns a coordinate (r, c) with r and c in 0..2
whose cell is empty, for every value of the random draw. -/
theorem C10_move_is_valid (b : Board) (ai hu : Mark) (k : Nat)
    (hs : Shaped b)
    (hne : ∃ i, i < 3 ∧ ∃ j, j < 3 ∧ cell b i j = none) :
    ∃ r c, (simpleAIMove b ai hu k).1 = some (r, c) ∧ r < 3 ∧ c < 3 ∧
      cell b r c = none := by
  rcases hh1 : (allCells.filter (winningPlacement b ai)).head? with _ | p
  · rcases hh2 : (allCells.filter (winningPlacement b hu)).head? with _ | q
    · by_cases hc : cell b 1 1 = none
      · refine ⟨1, 1, ?_, by omega, by omega, hc⟩
        rw [simpleAIMove_centerTier b ai hu k hs hh1 hh2 hc]
      · rw [simpleAIMove_randomTier b ai hu k hs hh1 hh2 hc]
        obtain ⟨i, hi, j, hj, hcell⟩ := hne
        have hmemall : (i, j) ∈ allCells := by
          interval_cases i <;> interval_cases j <;> decide
        have hmeme : (i, j) ∈ allCells.filter fun p => cell b p.1 p.2 == none :=
          List.mem_filter.mpr ⟨hmemall, by simpa using hcell⟩
        have hlen :
            0 < (allCells.filter fun p => cell b p.1 p.2 == none).length :=
          List.length_pos.mpr (List.ne_nil_of_mem hmeme)
        have hklt :
            k % (allCells.filter fun p => cell b p.1 p.2 == none).length <
              (allCells.filter fun p => cell b p.1 p.2 == none).length :=
          Nat.mod_lt _ hlen
        set L := allCells.filter fun p => cell b p.1 p.2 == none with hL
        have hget : L[k % L.length]? = some (L.get ⟨k % L.length, hklt⟩) := by
          rw [List.getElem?_eq_getElem hklt]
          rfl
        set q := L.get ⟨k % L.length, hklt⟩ with hq
        have hqmem : q ∈ L := List.get_mem L (k % L.length) hklt
        have hqfacts := List.mem_filter.mp (hL ▸ hqmem)
        have hqb := allCells_bounds q hqfacts.1
        refine ⟨q.1, q.2, ?_, hqb.1, hqb.2, by simpa using hqfacts.2⟩
        rw [hget]
    · have hfacts := List.mem_filter.mp (by
        rcases List.head?_eq_some_iff.mp hh2 with ⟨ys, hys⟩
        rw [hys]
        exact List.mem_cons_self q ys)
      have hb := allCells_bounds q hfacts.1
      have hcq : cell b q.1 q.2 = none := by
        have := hfacts.2
        simp only [winningPlacement, Bool.and_eq_true, beq_iff_eq] at this
        exact this.1
      refine ⟨q.1, q.2, ?_, hb.1, hb.2, hcq⟩
      rw [simpleAIMove_blockTier b ai hu k q hs hh1 hh2]
  · have hfacts := List.mem_filter.mp (by
      rcases List.head?_eq_some_iff.mp hh1 with ⟨ys, hys⟩
      rw [hys]
      exact List.mem_cons_self p ys)
    have hb := allCells_bounds p hfacts.1
    have hcp : cell b p.1 p.2 = none := by
      have := hfacts.2
      simp only [winningPlacement, Bool.and_eq_true, beq_iff_eq] at this
      exact this.1
    refine ⟨p.1, p.2, ?_, hb.1, hb.2, hcp⟩
    rw [simpleAIMove_winTier b ai hu k p hs hh1]

/-- C10 witness: on a mid-game board with empty cells the returned move
lands on an empty in-range cell. -/
theorem C10_move_is_valid_witness :
    ∃ r c,
      (simpleAIMove [[some Mark.O, none, none],
                     [none, some Mark.X, none],
                     [none, none, none]] Mark.O Mark.X 5).1 = some (r, c) ∧
      r < 3 ∧ c < 3 ∧
      cell [[some Mark.O, none, none],
            [none, some Mark.X, none],
            [none, none, none]] r c = none :=
  C10_move_is_valid _ Mark.O Mark.X 5 (by decide)
    ⟨0, by omega, 1, by omega, by decide⟩
